import Mathlib

/-!
Shallow embedding of `pkg/skaffold/docker/parse.go` (dockerfile dependency
resolution and port extraction) and proofs about it.

Modelling conventions:
* a Go `*parser.Node` linked chain is a `List Cell` (`[]` is the nil pointer,
  the head cell is the node pointed to, the tail is the `Next` chain);
* Go maps (`envs`, `depMap`, the image cache) are association lists / ordered
  lists with explicit set/insert operations;
* external collaborators (the moby shell lexer, the dockerfile parser, the
  filesystem, the dockerignore matcher, `util.ExpandPaths`) are function
  parameters;
* a computation that can nil-panic in Go is given a three-valued result
  (`ok` / `err` / `crash`); `Outcome.crash` and `Res.crash` model a Go
  runtime panic from a nil dereference.
-/

namespace Docker

/-- One node of a moby `parser.Node` chain: its `Value` and its `Flags`.
A whole chain (a `*parser.Node` pointer) is a `List Cell`. -/
structure Cell where
  value : String
  flags : List String
deriving DecidableEq, Repr

/-- Outcome of a Go function returning `error`, with `crash` for a nil-pointer
panic. -/
inductive Outcome where
  | ok
  | err (msg : String)
  | crash
deriving DecidableEq, Repr

/-- Result of a Go function returning `(T, error)`, with `crash` for a
nil-pointer panic. -/
inductive Res (α : Type) where
  | ok (a : α)
  | err (msg : String)
  | crash
deriving DecidableEq, Repr

/-- The mutable state threaded through `dispatchInstructions`: the `envs` map
and the `depMap` set (as an insertion-ordered deduplicated list). -/
structure DState where
  envs : List (String × String)
  deps : List String
deriving DecidableEq, Repr

/-- The keyword constants of parse.go (`from` is a Lean keyword, hence
`fromKw`). -/
def add : String := "add"

def copy : String := "copy"

def env : String := "env"

def fromKw : String := "from"

def expose : String := "expose"

/-- ASCII lower-casing of one character, as Go `strings.ToLower` does on the
ASCII range (image references are ASCII). -/
def toLowerChar (c : Char) : Char :=
  if 65 ≤ c.toNat ∧ c.toNat ≤ 90 then Char.ofNat (c.toNat + 32) else c

/-- Model of Go `strings.ToLower` (standard library, external), restricted to
ASCII. -/
def toLowerStr (s : String) : String := ⟨s.data.map toLowerChar⟩

/-- Byte-wise `≤` on Go strings, modelled as code-point lexicographic order
on the character lists (identical on ASCII). -/
def charsLe : List Char → List Char → Bool
  | [], _ => true
  | _ :: _, [] => false
  | a :: as, b :: bs =>
    if a.toNat < b.toNat then true
    else if b.toNat < a.toNat then false
    else charsLe as bs

/-- The string order `sort.Strings` sorts by. -/
def strLe (a b : String) : Bool := charsLe a.data b.data

/-- List prefix test for `strStarts`. -/
def listStarts : List Char → List Char → Bool
  | _, [] => true
  | [], _ :: _ => false
  | s :: ss, p :: ps => if s = p then listStarts ss ps else false

/-- Model of Go `strings.HasPrefix` (standard library, external): does `s`
start with `p`? -/
def strStarts (s p : String) : Bool := listStarts s.data p.data

/-- Model of Go `path.Join` / `filepath.Join` (standard library, external):
joins the non-empty components with a slash; path cleaning is not modelled. -/
def pathJoin (a b : String) : String :=
  if a = ("") then b else if b = ("") then a else a ++ ("/") ++ b

/-- Go map assignment `envs[k] = v`: later assignment of the same name
overwrites the earlier one. -/
def envSet (envs : List (String × String)) (k v : String) : List (String × String) :=
  (envs.filter (fun p => p.1 != k)) ++ [(k, v)]

/-- Go map key insertion `paths[d] = struct{}{}` on the dependency set,
modelled as append-if-absent on an insertion-ordered list. -/
def insertDep (d : String) (paths : List String) : List String :=
  if paths.contains d then paths else paths ++ [d]

/-- Function `hasMultiStageFlag` of parse.go: does some flag start with `--from=`? -/
def hasMultiStageFlag : List String → Bool
  | [] => false
  | f :: rest => if strStarts f ("--from=") then true else hasMultiStageFlag rest

/-- Function `processCopy` of parse.go.  `expand` is the moby shell lexer
(`processShellWord`), an external collaborator.  The loop walks the node
chain: it stops before the final (destination) token or at a comment token,
expands each source token, aborts the instruction on a multi-stage flag,
and inserts non-remote expanded tokens joined to the workspace.  The first
component of the result is the updated dependency set (the Go code mutates
the map in place, so additions made before an error survive); the second is
the returned `error` (or a nil panic when the chain is too short to
dereference `value.Next.Next`). -/
def processCopy (expand : String → List (String × String) → Except String String)
    (workspace : String) (envs : List (String × String)) :
    List Cell → List String → List String × Outcome
  | [], paths => (paths, Outcome.crash)
  | [_], paths => (paths, Outcome.crash)
  | [_, _], paths => (paths, Outcome.ok)
  | c :: n1 :: n2 :: rest, paths =>
    if strStarts n2.value ("#") then (paths, Outcome.ok)
    else
      match expand n1.value envs with
      | Except.error e => (paths, Outcome.err (("processing word: ") ++ e))
      | Except.ok src =>
        if hasMultiStageFlag c.flags then (paths, Outcome.ok)
        else
          processCopy expand workspace envs (n1 :: n2 :: rest)
            (if strStarts src ("http://") || strStarts src ("https://") then paths
             else insertDep (pathJoin workspace src) paths)

/-- The source tokens `processCopy` visits, in visiting order: every token of
the chain except the last (destination) one, cut off at a comment token. -/
def sourceTokens : List Cell → List String
  | [] => []
  | [_] => []
  | [_, _] => []
  | _ :: n1 :: n2 :: rest =>
    if strStarts n2.value ("#") then []
    else n1.value :: sourceTokens (n1 :: n2 :: rest)

/-- One step of the `dispatchInstructions` closure of parse.go: `add`/`copy`
go to `processCopy` — whose returned error is DISCARDED, exactly as in the
source (`processCopy(workspace, value, depMap, envs)` with no assignment) —
and `env` records the first name/value pair.  `none` models a nil-pointer
panic. -/
def dispatchInstr (expand : String → List (String × String) → Except String String)
    (workspace : String) (node : List Cell) (st : DState) : Option DState :=
  match node with
  | [] => none
  | c :: _ =>
    if c.value = add ∨ c.value = copy then
      match processCopy expand workspace st.envs node st.deps with
      | (_, Outcome.crash) => none
      | (paths, _) => some { st with deps := paths }
    else if c.value = env then
      match node with
      | _ :: n1 :: n2 :: _ => some { st with envs := envSet st.envs n1.value n2.value }
      | _ => none
    else some st

/-- The `dispatchInstructions` closure applied to a parse result's children. -/
def dispatchInstructions (expand : String → List (String × String) → Except String String)
    (workspace : String) : List (List Cell) → DState → Option DState
  | [], st => some st
  | node :: rest, st =>
    match dispatchInstr expand workspace node st with
    | none => none
    | some st' => dispatchInstructions expand workspace rest st'

/-- The relevant part of a `v1.ConfigFile`: the keys of `Config.ExposedPorts`
and the `Config.OnBuild` trigger strings. -/
structure ConfigFile where
  exposedPorts : List String
  onBuild : List String
deriving DecidableEq, Repr

/-- Function `processBaseImage` of parse.go: read the base reference from
`value.Next.Value` (nil panic if there is no argument), skip a
case-insensitive "scratch" with empty triggers and no lookup, otherwise
return the retrieved config's OnBuild list or the lookup error. -/
def processBaseImage (retrieve : String → Except String ConfigFile)
    (node : List Cell) : Res (List String) :=
  match node with
  | _ :: n1 :: _ =>
    if toLowerStr n1.value = ("scratch") then Res.ok []
    else
      match retrieve n1.value with
      | Except.error e => Res.err e
      | Except.ok img => Res.ok img.onBuild
  | _ => Res.crash

/-- The first loop of `GetDockerfileDependencies`: for every `from`
instruction collect its ONBUILD triggers; a lookup error is only logged and
the (nil, hence empty) trigger list is still appended. -/
def collectOnbuilds (retrieve : String → Except String ConfigFile) :
    List (List Cell) → Option (List (List String))
  | [] => some []
  | node :: rest =>
    match node with
    | [] => none
    | c :: _ =>
      if c.value = fromKw then
        match processBaseImage retrieve node with
        | Res.crash => none
        | Res.err _ => (collectOnbuilds retrieve rest).map (fun l => [] :: l)
        | Res.ok obs => (collectOnbuilds retrieve rest).map (fun l => obs :: l)
      else collectOnbuilds retrieve rest

/-- The inner trigger-replay loop of `GetDockerfileDependencies`: each
trigger string is parsed (`parseT` is the external dockerfile parser; its
failure is returned, hence fatal) and dispatched like a main-file
instruction. -/
def replayImage (parseT : String → Except String (List (List Cell)))
    (expand : String → List (String × String) → Except String String)
    (workspace : String) : List String → DState → Res DState
  | [], st => Res.ok st
  | ob :: rest, st =>
    match parseT ob with
    | Except.error e => Res.err e
    | Except.ok obNodes =>
      match dispatchInstructions expand workspace obNodes st with
      | none => Res.crash
      | some st' => replayImage parseT expand workspace rest st'

/-- The outer trigger-replay loop: one `replayImage` run per collected base
image. -/
def replayTriggers (parseT : String → Except String (List (List Cell)))
    (expand : String → List (String × String) → Except String String)
    (workspace : String) : List (List String) → DState → Res DState
  | [], st => Res.ok st
  | image :: rest, st =>
    match replayImage parseT expand workspace image st with
    | Res.ok st' => replayTriggers parseT expand workspace rest st'
    | r => r

/-- Result of `util.Fs.Stat` as parse.go observes it: the file exists, the
stat error satisfies `os.IsNotExist`, or it is some other error. -/
inductive StatRes where
  | found
  | notExist
  | otherErr
deriving DecidableEq, Repr

/-- The external collaborators of `ApplyDockerIgnore`: the filesystem
(`stat`, `openFile`, `readAll` for `dockerignore.ReadAll`), the repository's
`util.RelPathToAbsPath` (not under src; modelled from the spec as the
conversion of candidate paths and patterns "to a common absolute-path
representation"), and the external matcher `fileutils.Matches`. -/
structure IgnoreEnv where
  stat : String → StatRes
  openFile : String → Except String Unit
  readAll : String → Except String (List String)
  relPathToAbsPath : List String → Except String (List String)
  matchPath : String → List String → Except String Bool

/-- The exclusion-pattern block of `ApplyDockerIgnore`: a missing ignore file
yields the empty list; otherwise the file is opened and read (both failures
returned) and the literal ".dockerignore" self-exclusion is appended. -/
def dockerIgnoreExcludes (ie : IgnoreEnv) (dockerIgnorePath : String) :
    Except String (List String) :=
  match ie.stat dockerIgnorePath with
  | StatRes.notExist => Except.ok []
  | _ =>
    match ie.openFile dockerIgnorePath with
    | Except.error e => Except.error e
    | Except.ok _ =>
      match ie.readAll dockerIgnorePath with
      | Except.error e => Except.error e
      | Except.ok ex => Except.ok (ex ++ [".dockerignore"])

/-- The filtering loop of `ApplyDockerIgnore`: keep the paths the matcher
rejects; a matcher error is returned. -/
def filterDeps (matchFn : String → List String → Except String Bool)
    (excludes : List String) : List String → Except String (List String)
  | [] => Except.ok []
  | d :: rest =>
    match matchFn d excludes with
    | Except.error e => Except.error e
    | Except.ok m =>
      match filterDeps matchFn excludes rest with
      | Except.error e => Except.error e
      | Except.ok tail => Except.ok (if m then tail else d :: tail)

/-- Insertion step of the `sort.Strings` model. -/
def orderedInsert (a : String) : List String → List String
  | [] => [a]
  | b :: l => if strLe a b then a :: b :: l else b :: orderedInsert a l

/-- Go `sort.Strings`: lexicographic (string, not numeric) ascending sort,
modelled as insertion sort by `strLe` (equal elements are identical strings,
so every ascending sort produces this list). -/
def sortStrings : List String → List String
  | [] => []
  | a :: l => orderedInsert a (sortStrings l)

/-- Function `ApplyDockerIgnore` of parse.go. -/
def applyDockerIgnore (ie : IgnoreEnv) (paths : List String)
    (dockerIgnorePath : String) : Except String (List String) :=
  match ie.relPathToAbsPath paths with
  | Except.error e => Except.error (("getting absolute path of dependencies: ") ++ e)
  | Except.ok absPaths =>
    match dockerIgnoreExcludes ie dockerIgnorePath with
    | Except.error e => Except.error e
    | Except.ok excludes =>
      match ie.relPathToAbsPath excludes with
      | Except.error e =>
        Except.error (("getting absolute path of docker ignored paths: ") ++ e)
      | Except.ok absPathExcludes =>
        match filterDeps ie.matchPath absPathExcludes absPaths with
        | Except.error e => Except.error e
        | Except.ok filtered => Except.ok (sortStrings filtered)

/-- Modelled from the spec: `util.StrSliceContains` (repository code not
under src), the membership test used before "the instruction file's own path
is added to the candidate set". -/
def strSliceContains (l : List String) (s : String) : Bool := l.contains s

/-- The tail of `GetDockerfileDependencies` after the trigger replay: the
main file's instructions are dispatched on the post-trigger state, the
dependency set is passed to the external `util.ExpandPaths` collaborator
(`expandPaths`), the dockerfile's own path is appended if absent, and the
result is filtered through `ApplyDockerIgnore`. -/
def mainPhase (expand : String → List (String × String) → Except String String)
    (expandPaths : String → List String → Except String (List String))
    (ie : IgnoreEnv) (dockerfilePath workspace : String)
    (nodes : List (List Cell)) (st : DState) : Res (List String) :=
  match dispatchInstructions expand workspace nodes st with
  | none => Res.crash
  | some st2 =>
    match expandPaths workspace st2.deps with
    | Except.error e => Res.err (("expanding dockerfile paths: ") ++ e)
    | Except.ok expandedDeps =>
      match applyDockerIgnore ie
          (if strSliceContains expandedDeps (pathJoin workspace dockerfilePath)
           then expandedDeps
           else expandedDeps ++ [pathJoin workspace dockerfilePath])
          (pathJoin workspace (".dockerignore")) with
      | Except.error e => Res.err (("applying dockerignore: ") ++ e)
      | Except.ok filteredDeps => Res.ok filteredDeps

/-- Function `GetDockerfileDependencies` of parse.go.  `openRes` is `util.Fs.Open`,
`parseRes` the result of `parser.Parse` on the opened file, `retrieve` the
`RetrieveImage` variable, `parseT` the parser applied to a trigger string.
Open and parse failures are fatal; the ONBUILD passes run before the main
pass on a fresh empty state. -/
def getDockerfileDependencies (openRes : String → Except String Unit)
    (parseRes : Except String (List (List Cell)))
    (retrieve : String → Except String ConfigFile)
    (parseT : String → Except String (List (List Cell)))
    (expand : String → List (String × String) → Except String String)
    (expandPaths : String → List String → Except String (List String))
    (ie : IgnoreEnv) (dockerfilePath workspace : String) : Res (List String) :=
  match openRes (pathJoin workspace dockerfilePath) with
  | Except.error e =>
    Res.err (("opening dockerfile: ") ++ pathJoin workspace dockerfilePath ++ (": ") ++ e)
  | Except.ok _ =>
    match parseRes with
    | Except.error e => Res.err (("parsing dockerfile: ") ++ e)
    | Except.ok nodes =>
      match collectOnbuilds retrieve nodes with
      | none => Res.crash
      | some onbuildsImages =>
        match replayTriggers parseT expand workspace onbuildsImages ⟨[], []⟩ with
        | Res.crash => Res.crash
        | Res.err e => Res.err e
        | Res.ok st1 => mainPhase expand expandPaths ie dockerfilePath workspace nodes st1

/-- The walk of `PortsFromDockerfile`: `from` resolves the base (scratch is
skipped with no lookup; a lookup error is only logged and skipped) and
collects its exposed-port keys; `expose` collects every token after the
keyword on the line. -/
def collectPorts (retrieve : String → Except String ConfigFile) :
    List (List Cell) → List String → Option (List String)
  | [], ports => some ports
  | node :: rest, ports =>
    match node with
    | [] => none
    | c :: tail =>
      if c.value = fromKw then
        match tail with
        | [] => none
        | n1 :: _ =>
          if toLowerStr n1.value = ("scratch") then collectPorts retrieve rest ports
          else
            match retrieve n1.value with
            | Except.error _ => collectPorts retrieve rest ports
            | Except.ok img => collectPorts retrieve rest (ports ++ img.exposedPorts)
      else if c.value = expose then
        collectPorts retrieve rest (ports ++ tail.map (fun x => x.value))
      else collectPorts retrieve rest ports

/-- Function `PortsFromDockerfile` of parse.go: parse (fatal on failure), walk, sort
the merged port list with `sort.Strings`. -/
def portsFromDockerfile (retrieve : String → Except String ConfigFile)
    (parseRes : Except String (List (List Cell))) : Res (List String) :=
  match parseRes with
  | Except.error e => Res.err (("parsing dockerfile: ") ++ e)
  | Except.ok nodes =>
    match collectPorts retrieve nodes [] with
    | none => Res.crash
    | some ports => Res.ok (sortStrings ports)

/-- Operation `sync.Map.Load` on the image cache. -/
def cacheLoad : List (String × ConfigFile) → String → Option ConfigFile
  | [], _ => none
  | (k, v) :: rest, image => if k = image then some v else cacheLoad rest image

/-- Operation `sync.Map.Store` on the image cache: the newest binding shadows any
older one. -/
def cacheStore (cache : List (String × ConfigFile)) (image : String)
    (cfg : ConfigFile) : List (String × ConfigFile) :=
  (image, cfg) :: cache

/-- Function `retrieveImage` of parse.go with the `sync.Map` cache threaded
explicitly.  `newClient` is `NewDockerAPIClient`; `localRaw` is
`retrieveLocalImage` (raw config bytes); `unmarshal` is `json.Unmarshal`;
`remote` is `retrieveRemoteConfig`.  The last component counts how many
provider lookups (local attempts plus remote fallbacks) this call performed:
a cache hit performs none and leaves the cache untouched. -/
def retrieveImage (newClient : Except String Unit)
    (localRaw : String → Except String String)
    (unmarshal : String → Except String ConfigFile)
    (remote : String → Except String ConfigFile)
    (cache : List (String × ConfigFile)) (image : String) :
    Except String ConfigFile × List (String × ConfigFile) × Nat :=
  match cacheLoad cache image with
  | some cfg => (Except.ok cfg, cache, 0)
  | none =>
    match newClient with
    | Except.error e => (Except.error e, cache, 0)
    | Except.ok _ =>
      match localRaw image with
      | Except.ok raw =>
        match unmarshal raw with
        | Except.error e => (Except.error e, cache, 1)
        | Except.ok cfg => (Except.ok cfg, cacheStore cache image cfg, 1)
      | Except.error _ =>
        match remote image with
        | Except.error e => (Except.error (("getting remote config: ") ++ e), cache, 2)
        | Except.ok cfg => (Except.ok cfg, cacheStore cache image cfg, 2)

/-! ## General lemmas about the string order and the sort -/

theorem charsLe_total : ∀ as bs, charsLe as bs = true ∨ charsLe bs as = true
  | [], [] => Or.inl rfl
  | [], _ :: _ => Or.inl rfl
  | _ :: _, [] => Or.inr rfl
  | a :: as, b :: bs => by
    simp only [charsLe]
    by_cases hab : a.toNat < b.toNat
    · simp [hab]
    · by_cases hba : b.toNat < a.toNat
      · simp [hab, hba]
      · simpa [hab, hba] using charsLe_total as bs

theorem charsLe_trans : ∀ as bs cs, charsLe as bs = true → charsLe bs cs = true →
    charsLe as cs = true
  | [], _, _, _, _ => rfl
  | _ :: _, [], _, h1, _ => by simp [charsLe] at h1
  | _ :: _, _ :: _, [], _, h2 => by simp [charsLe] at h2
  | a :: as, b :: bs, c :: cs, h1, h2 => by
    simp only [charsLe] at h1 h2 ⊢
    by_cases hab : a.toNat < b.toNat
    · by_cases hbc : b.toNat < c.toNat
      · have hac : a.toNat < c.toNat := Nat.lt_trans hab hbc
        simp [hac]
      · by_cases hcb : c.toNat < b.toNat
        · simp [hbc, hcb] at h2
        · have hac : a.toNat < c.toNat := by omega
          simp [hac]
    · by_cases hba : b.toNat < a.toNat
      · simp [hab, hba] at h1
      · rw [if_neg hab, if_neg hba] at h1
        by_cases hbc : b.toNat < c.toNat
        · have hac : a.toNat < c.toNat := by omega
          simp [hac]
        · by_cases hcb : c.toNat < b.toNat
          · simp [hbc, hcb] at h2
          · rw [if_neg hbc, if_neg hcb] at h2
            have hac : ¬ a.toNat < c.toNat := by omega
            have hca : ¬ c.toNat < a.toNat := by omega
            rw [if_neg hac, if_neg hca]
            exact charsLe_trans as bs cs h1 h2

theorem strLe_total (a b : String) : strLe a b = true ∨ strLe b a = true :=
  charsLe_total a.data b.data

theorem strLe_trans {a b c : String} (h1 : strLe a b = true) (h2 : strLe b c = true) :
    strLe a c = true :=
  charsLe_trans a.data b.data c.data h1 h2

theorem mem_orderedInsert (x a : String) :
    ∀ l, x ∈ orderedInsert a l ↔ x = a ∨ x ∈ l
  | [] => by simp [orderedInsert]
  | b :: l => by
    simp only [orderedInsert]
    by_cases h : strLe a b = true
    · rw [if_pos h]
      simp
    · rw [if_neg h]
      simp only [List.mem_cons, mem_orderedInsert x a l]
      tauto

theorem mem_sortStrings (x : String) : ∀ l, x ∈ sortStrings l ↔ x ∈ l
  | [] => Iff.rfl
  | a :: l => by
    simp only [sortStrings, mem_orderedInsert, mem_sortStrings x l, List.mem_cons]

/-- Sortedness predicate for the `sort.Strings` model. -/
def StrSorted (l : List String) : Prop :=
  List.Pairwise (fun a b => strLe a b = true) l

theorem sorted_orderedInsert (a : String) :
    ∀ l, StrSorted l → StrSorted (orderedInsert a l)
  | [], _ => List.pairwise_singleton _ a
  | b :: l, h => by
    simp only [orderedInsert]
    by_cases hab : strLe a b = true
    · rw [if_pos hab]
      refine List.Pairwise.cons ?_ h
      intro x hx
      rcases List.mem_cons.mp hx with rfl | hx
      · exact hab
      · exact strLe_trans hab ((List.pairwise_cons.mp h).1 x hx)
    · rw [if_neg hab]
      have hba : strLe b a = true := (strLe_total a b).resolve_left hab
      rcases List.pairwise_cons.mp h with ⟨hb, hl⟩
      refine List.Pairwise.cons ?_ (sorted_orderedInsert a l hl)
      intro x hx
      rcases (mem_orderedInsert x a l).mp hx with rfl | hx
      · exact hba
      · exact hb x hx

theorem sorted_sortStrings : ∀ l, StrSorted (sortStrings l)
  | [] => List.Pairwise.nil
  | a :: l => sorted_orderedInsert a (sortStrings l) (sorted_sortStrings l)

/-! ## Helper lemmas about the embedded program -/

theorem hasMultiStageFlag_of_mem {fl : List String} {f : String} (hf : f ∈ fl)
    (hpre : strStarts f ("--from=") = true) : hasMultiStageFlag fl = true := by
  induction fl with
  | nil => cases hf
  | cons g rest ih =>
    simp only [hasMultiStageFlag]
    by_cases hg : strStarts g ("--from=") = true
    · rw [if_pos hg]
    · rw [if_neg hg]
      rcases List.mem_cons.mp hf with rfl | hmem
      · exact absurd hpre hg
      · exact ih hmem

theorem cacheLoad_cacheStore (cache : List (String × ConfigFile)) (image : String)
    (cfg : ConfigFile) : cacheLoad (cacheStore cache image cfg) image = some cfg := by
  simp [cacheStore, cacheLoad]

/-! ## Claim theorems -/

/-- C2: for every ADD/COPY instruction that carries a flag matching
`--from=<value>`, processing that instruction adds no path to the dependency
set, regardless of how many source tokens the instruction has or where they
appear relative to the flag check. -/
theorem copy_multistage_adds_nothing
    (expand : String → List (String × String) → Except String String)
    (workspace : String) (envs : List (String × String))
    (c : Cell) (tail : List Cell) (paths : List String) (f : String)
    (hf : f ∈ c.flags) (hpre : strStarts f ("--from=") = true) :
    (processCopy expand workspace envs (c :: tail) paths).1 = paths := by
  have hflag : hasMultiStageFlag c.flags = true := hasMultiStageFlag_of_mem hf hpre
  rcases tail with _ | ⟨n1, _ | ⟨n2, rest⟩⟩
  · rfl
  · rfl
  · simp only [processCopy]
    by_cases hc : strStarts n2.value ("#") = true
    · rw [if_pos hc]
    · rw [if_neg hc]
      cases hx : expand n1.value envs with
      | error e => rfl
      | ok src => simp [hflag]

/-- Witness for C2: a two-source `COPY --from=builder` contributes nothing. -/
theorem copy_multistage_adds_nothing_witness :
    (processCopy (fun t _ => Except.ok t) ("/ws") []
      (Cell.mk copy ["--from=builder"] ::
        [Cell.mk ("a.go") [], Cell.mk ("b.go") [], Cell.mk ("/dest") []]) []).1 = [] :=
  copy_multistage_adds_nothing _ _ _ _ _ _ ("--from=builder") (by decide) (by decide)

/-- C10: dispatching an ENV instruction records only the first name/value
token pair; any further tokens on the instruction are ignored, and the whole
subsequent dispatch (hence any later shell-word expansion) is identical for
any tail of extra pairs. -/
theorem env_records_first_pair_only
    (expand : String → List (String × String) → Except String String)
    (workspace : String) (flags fk fv : List String) (k v : String)
    (tail : List Cell) (rest : List (List Cell)) (st : DState) :
    (dispatchInstr expand workspace
        (Cell.mk env flags :: Cell.mk k fk :: Cell.mk v fv :: tail) st
      = some { st with envs := envSet st.envs k v }) ∧
    (dispatchInstructions expand workspace
        ((Cell.mk env flags :: Cell.mk k fk :: Cell.mk v fv :: tail) :: rest) st
      = dispatchInstructions expand workspace
        ((Cell.mk env flags :: Cell.mk k fk :: Cell.mk v fv :: []) :: rest) st) :=
  ⟨rfl, rfl⟩

/-- C8: the port extractor on `FROM scratch`, `EXPOSE 80 443`, `EXPOSE 8080`
returns `["443", "80", "8080"]` — scratch is skipped without any lookup (the
result is the same for every retriever), each token after EXPOSE is
collected, and the merged list is sorted lexicographically, not
numerically. -/
theorem ports_scratch_expose_scenario (retrieve : String → Except String ConfigFile) :
    portsFromDockerfile retrieve (Except.ok
      [[Cell.mk fromKw [], Cell.mk ("scratch") []],
       [Cell.mk expose [], Cell.mk ("80") [], Cell.mk ("443") []],
       [Cell.mk expose [], Cell.mk ("8080") []]])
      = Res.ok ["443", "80", "8080"] := rfl

/-- C6: with the cache empty for `image` and a succeeding local provider,
the first `retrieveImage` call performs exactly one provider lookup and
stores the descriptor; the second call on the resulting cache performs no
lookup and returns the cached descriptor with the cache unchanged. -/
theorem retrieveImage_caches_second_call
    (localRaw : String → Except String String)
    (unmarshal : String → Except String ConfigFile)
    (remote : String → Except String ConfigFile)
    (cache : List (String × ConfigFile)) (image raw : String) (cfg : ConfigFile)
    (hmiss : cacheLoad cache image = none)
    (hlocal : localRaw image = Except.ok raw)
    (hunm : unmarshal raw = Except.ok cfg) :
    retrieveImage (Except.ok ()) localRaw unmarshal remote cache image
      = (Except.ok cfg, cacheStore cache image cfg, 1) ∧
    retrieveImage (Except.ok ()) localRaw unmarshal remote
        (cacheStore cache image cfg) image
      = (Except.ok cfg, cacheStore cache image cfg, 0) := by
  constructor
  · simp [retrieveImage, hmiss, hlocal, hunm]
  · simp [retrieveImage, cacheLoad_cacheStore]

/-- Witness for C6 at a concrete provider and image. -/
theorem retrieveImage_caches_second_call_witness :
    retrieveImage (Except.ok ()) (fun _ => Except.ok ("raw"))
        (fun _ => Except.ok (ConfigFile.mk [] [])) (fun _ => Except.error ("x"))
        [] ("alpine")
      = (Except.ok (ConfigFile.mk [] []), cacheStore [] ("alpine") (ConfigFile.mk [] []), 1) ∧
    retrieveImage (Except.ok ()) (fun _ => Except.ok ("raw"))
        (fun _ => Except.ok (ConfigFile.mk [] [])) (fun _ => Except.error ("x"))
        (cacheStore [] ("alpine") (ConfigFile.mk [] [])) ("alpine")
      = (Except.ok (ConfigFile.mk [] []), cacheStore [] ("alpine") (ConfigFile.mk [] []), 0) :=
  retrieveImage_caches_second_call _ _ _ _ _ ("raw") _ rfl rfl rfl

/-- C7: a base-image lookup failure is non-fatal.  During ONBUILD collection
the failing `FROM` contributes an empty trigger list and the walk goes on;
replaying an empty trigger list changes nothing; and during port extraction
the failing `FROM` contributes no ports and the walk goes on. -/
theorem lookup_failure_nonfatal
    (retrieve : String → Except String ConfigFile)
    (parseT : String → Except String (List (List Cell)))
    (expand : String → List (String × String) → Except String String)
    (workspace : String) (c n1 : Cell) (ctail : List Cell)
    (rest : List (List Cell)) (imgs : List (List String))
    (ports : List String) (st : DState) (e : String)
    (hfrom : c.value = fromKw)
    (hscr : toLowerStr n1.value ≠ ("scratch"))
    (herr : retrieve n1.value = Except.error e) :
    (collectOnbuilds retrieve ((c :: n1 :: ctail) :: rest)
      = (collectOnbuilds retrieve rest).map (fun l => [] :: l)) ∧
    (replayTriggers parseT expand workspace ([] :: imgs) st
      = replayTriggers parseT expand workspace imgs st) ∧
    (collectPorts retrieve ((c :: n1 :: ctail) :: rest) ports
      = collectPorts retrieve rest ports) := by
  refine ⟨?_, rfl, ?_⟩
  · simp [collectOnbuilds, processBaseImage, hfrom, hscr, herr]
  · simp [collectPorts, hfrom, hscr, herr]

/-- Witness for C7: a concrete failing base image. -/
theorem lookup_failure_nonfatal_witness :
    (collectOnbuilds (fun _ => Except.error ("nope"))
        [[Cell.mk fromKw [], Cell.mk ("badimage") []]]
      = (collectOnbuilds (fun _ => Except.error ("nope")) []).map (fun l => [] :: l)) ∧
    (replayTriggers (fun _ => Except.error ("unused")) (fun t _ => Except.ok t) ("/ws")
        ([] :: []) (DState.mk [] [])
      = replayTriggers (fun _ => Except.error ("unused")) (fun t _ => Except.ok t) ("/ws")
        [] (DState.mk [] [])) ∧
    (collectPorts (fun _ => Except.error ("nope"))
        [[Cell.mk fromKw [], Cell.mk ("badimage") []]] []
      = collectPorts (fun _ => Except.error ("nope")) [] []) :=
  lookup_failure_nonfatal _ _ _ _ (Cell.mk fromKw []) (Cell.mk ("badimage") []) [] [] [] [] _
    ("nope") rfl (by decide) rfl

/-- C1 (evidence of the code bug): the shell expander fails on the first
COPY's source token, yet `GetDockerfileDependencies` succeeds — the
`dispatchInstructions` closure discards the error `processCopy` returns, so
no `ExpansionError` is propagated and a dependency list is produced
anyway. -/
theorem expansion_error_dropped :
    ((fun tok (_ : List (String × String)) =>
        if tok = ("\"unclosed") then Except.error ("unexpected end of statement")
        else Except.ok tok) ("\"unclosed") []
      = Except.error ("unexpected end of statement")) ∧
    (getDockerfileDependencies (fun _ => Except.ok ())
      (Except.ok [[Cell.mk copy [], Cell.mk ("\"unclosed") [], Cell.mk ("/dest") []],
                  [Cell.mk copy [], Cell.mk ("app.go") [], Cell.mk ("/dest") []]])
      (fun _ => Except.error ("unused")) (fun _ => Except.error ("unused"))
      (fun tok _ =>
        if tok = ("\"unclosed") then Except.error ("unexpected end of statement")
        else Except.ok tok)
      (fun _ l => Except.ok l)
      (IgnoreEnv.mk (fun _ => StatRes.notExist) (fun _ => Except.ok ())
        (fun _ => Except.ok []) (fun l => Except.ok l) (fun _ _ => Except.ok false))
      ("Dockerfile") ("/ws")
      = Res.ok ["/ws/Dockerfile", "/ws/app.go"]) :=
  ⟨rfl, rfl⟩

theorem mem_insertDep {p d : String} {paths : List String}
    (h : p ∈ insertDep d paths) : p = d ∨ p ∈ paths := by
  unfold insertDep at h
  by_cases hc : paths.contains d = true
  · rw [if_pos hc] at h
    exact Or.inr h
  · rw [if_neg hc] at h
    rcases List.mem_append.mp h with h | h
    · exact Or.inr h
    · rcases List.mem_singleton.mp h with rfl
      exact Or.inl rfl

/-- C5: every path `processCopy` adds to the dependency set comes from a
source token whose expansion succeeded and does not begin with `http://` or
`https://`, joined to the workspace (so a remote-expanding token never
appears in the result); and an error outcome can only be caused by an
expansion failure on a source token (so a remote token never causes a
failure). -/
theorem remote_sources_skipped
    (expand : String → List (String × String) → Except String String)
    (workspace : String) (envs : List (String × String)) :
    ∀ (node : List Cell) (paths : List String),
    (∀ p, p ∈ (processCopy expand workspace envs node paths).1 → p ∉ paths →
      ∃ tok, tok ∈ sourceTokens node ∧ ∃ src, expand tok envs = Except.ok src ∧
        strStarts src ("http://") = false ∧ strStarts src ("https://") = false ∧
        p = pathJoin workspace src) ∧
    (∀ msg, (processCopy expand workspace envs node paths).2 = Outcome.err msg →
      ∃ tok, tok ∈ sourceTokens node ∧ ∃ e, expand tok envs = Except.error e)
  | [], paths => by
    refine ⟨fun p hp hnp => absurd hp hnp, fun msg h => ?_⟩
    simp [processCopy] at h
  | [x], paths => by
    refine ⟨fun p hp hnp => absurd hp hnp, fun msg h => ?_⟩
    simp [processCopy] at h
  | [x, y], paths => by
    refine ⟨fun p hp hnp => absurd hp hnp, fun msg h => ?_⟩
    simp [processCopy] at h
  | c :: n1 :: n2 :: rest, paths => by
    by_cases hc : strStarts n2.value ("#") = true
    · have hred : processCopy expand workspace envs (c :: n1 :: n2 :: rest) paths
          = (paths, Outcome.ok) := by
        simp [processCopy, hc]
      rw [hred]
      exact ⟨fun p hp hnp => absurd hp hnp, fun msg h => by simp at h⟩
    · cases hx : expand n1.value envs with
      | error e =>
        have hred : processCopy expand workspace envs (c :: n1 :: n2 :: rest) paths
            = (paths, Outcome.err (("processing word: ") ++ e)) := by
          simp [processCopy, hc, hx]
        rw [hred]
        refine ⟨fun p hp hnp => absurd hp hnp, fun msg _ => ?_⟩
        exact ⟨n1.value, by simp [sourceTokens, hc], e, hx⟩
      | ok src =>
        by_cases hm : hasMultiStageFlag c.flags = true
        · have hred : processCopy expand workspace envs (c :: n1 :: n2 :: rest) paths
              = (paths, Outcome.ok) := by
            simp [processCopy, hc, hx, hm]
          rw [hred]
          exact ⟨fun p hp hnp => absurd hp hnp, fun msg h => by simp at h⟩
        · have hred : processCopy expand workspace envs (c :: n1 :: n2 :: rest) paths
              = processCopy expand workspace envs (n1 :: n2 :: rest)
                  (if strStarts src ("http://") || strStarts src ("https://") then paths
                   else insertDep (pathJoin workspace src) paths) := by
            simp [processCopy, hc, hx, hm]
          have hsrc : sourceTokens (c :: n1 :: n2 :: rest)
              = n1.value :: sourceTokens (n1 :: n2 :: rest) := by
            simp [sourceTokens, hc]
          rw [hred, hsrc]
          by_cases hhttp : (strStarts src ("http://") || strStarts src ("https://")) = true
          · rw [if_pos hhttp]
            obtain ⟨ih1, ih2⟩ := remote_sources_skipped expand workspace envs
              (n1 :: n2 :: rest) paths
            constructor
            · intro p hp hnp
              obtain ⟨tok, htok, rest'⟩ := ih1 p hp hnp
              exact ⟨tok, List.mem_cons_of_mem _ htok, rest'⟩
            · intro msg h
              obtain ⟨tok, htok, rest'⟩ := ih2 msg h
              exact ⟨tok, List.mem_cons_of_mem _ htok, rest'⟩
          · rw [if_neg hhttp]
            obtain ⟨ih1, ih2⟩ := remote_sources_skipped expand workspace envs
              (n1 :: n2 :: rest) (insertDep (pathJoin workspace src) paths)
            have hor : strStarts src ("http://") = false ∧
                strStarts src ("https://") = false := by
              simpa [not_or] using hhttp
            constructor
            · intro p hp hnp
              by_cases hpp : p ∈ insertDep (pathJoin workspace src) paths
              · rcases mem_insertDep hpp with rfl | hpl
                · exact ⟨n1.value, List.mem_cons_self _ _, src, hx, hor.1, hor.2, rfl⟩
                · exact absurd hpl hnp
              · obtain ⟨tok, htok, rest'⟩ := ih1 p hp hpp
                exact ⟨tok, List.mem_cons_of_mem _ htok, rest'⟩
            · intro msg h
              obtain ⟨tok, htok, rest'⟩ := ih2 msg h
              exact ⟨tok, List.mem_cons_of_mem _ htok, rest'⟩

/-- Witness for C5: with an identity expander, `COPY http://r.io/f app.go
/dest` yields only the joined local source. -/
theorem remote_sources_skipped_witness :
    ∃ tok, tok ∈ sourceTokens [Cell.mk copy [], Cell.mk ("http://r.io/f") [],
        Cell.mk ("app.go") [], Cell.mk ("/dest") []] ∧
      ∃ src, Except.ok tok = (Except.ok src : Except String String) ∧
        strStarts src ("http://") = false ∧ strStarts src ("https://") = false ∧
        ("/ws/app.go") = pathJoin ("/ws") src :=
  (remote_sources_skipped (fun t _ => Except.ok t) ("/ws") []
      [Cell.mk copy [], Cell.mk ("http://r.io/f") [], Cell.mk ("app.go") [],
        Cell.mk ("/dest") []] []).1
    ("/ws/app.go") (by decide) (by decide)

/-- Sequencing on `Res`: errors and crashes propagate. -/
def Res.bind {α β : Type} (r : Res α) (f : α → Res β) : Res β :=
  match r with
  | Res.ok a => f a
  | Res.err e => Res.err e
  | Res.crash => Res.crash

theorem replayImage_append (parseT : String → Except String (List (List Cell)))
    (expand : String → List (String × String) → Except String String)
    (workspace : String) :
    ∀ (l1 l2 : List String) (st : DState),
    replayImage parseT expand workspace (l1 ++ l2) st
      = (replayImage parseT expand workspace l1 st).bind
          (fun st' => replayImage parseT expand workspace l2 st')
  | [], _, _ => rfl
  | ob :: rest, l2, st => by
    cases hp : parseT ob with
    | error e => simp [replayImage, hp, Res.bind]
    | ok obNodes =>
      cases hd : dispatchInstructions expand workspace obNodes st with
      | none => simp [replayImage, hp, hd, Res.bind]
      | some st' =>
        simp only [List.cons_append, replayImage, hp, hd]
        exact replayImage_append parseT expand workspace rest l2 st'

theorem replayTriggers_eq_flatten (parseT : String → Except String (List (List Cell)))
    (expand : String → List (String × String) → Except String String)
    (workspace : String) :
    ∀ (imgs : List (List String)) (st : DState),
    replayTriggers parseT expand workspace imgs st
      = replayImage parseT expand workspace imgs.flatten st
  | [], _ => rfl
  | image :: rest, st => by
    rw [show (image :: rest).flatten = image ++ rest.flatten from rfl,
      replayImage_append]
    simp only [replayTriggers]
    cases hri : replayImage parseT expand workspace image st with
    | ok st' =>
      simp only [Res.bind]
      exact replayTriggers_eq_flatten parseT expand workspace rest st'
    | err e => rfl
    | crash => rfl

/-- C3: all ONBUILD triggers are dispatched before any main-file
instruction.  Conjunct 1: `GetDockerfileDependencies` replays the flattened
trigger list starting from the EMPTY state (no main-file ENV assignment is
visible to any trigger) and only then runs `mainPhase`, which dispatches the
main file on the state the triggers produced.  Conjunct 2: an individual
trigger `ob` is parsed and dispatched in exactly the state produced by
replaying the earlier triggers `pre` — its environment table holds precisely
the ENV assignments of earlier-processed triggers. -/
theorem triggers_dispatch_before_main
    (retrieve : String → Except String ConfigFile)
    (parseT : String → Except String (List (List Cell)))
    (expand : String → List (String × String) → Except String String)
    (expandPaths : String → List String → Except String (List String))
    (ie : IgnoreEnv) (dockerfilePath workspace : String)
    (nodes : List (List Cell)) (pre post : List String) (ob : String) (st : DState) :
    (getDockerfileDependencies (fun _ => Except.ok ()) (Except.ok nodes) retrieve parseT
        expand expandPaths ie dockerfilePath workspace
      = match collectOnbuilds retrieve nodes with
        | none => Res.crash
        | some imgs =>
          (replayImage parseT expand workspace imgs.flatten (DState.mk [] [])).bind
            (fun st1 => mainPhase expand expandPaths ie dockerfilePath workspace
              nodes st1)) ∧
    (replayImage parseT expand workspace (pre ++ ob :: post) st
      = (replayImage parseT expand workspace pre st).bind (fun st' =>
          match parseT ob with
          | Except.error e => Res.err e
          | Except.ok obNodes =>
            match dispatchInstructions expand workspace obNodes st' with
            | none => Res.crash
            | some st'' => replayImage parseT expand workspace post st'')) := by
  constructor
  · cases hob : collectOnbuilds retrieve nodes with
    | none => simp [getDockerfileDependencies, hob]
    | some imgs =>
      simp only [getDockerfileDependencies, hob]
      rw [replayTriggers_eq_flatten]
      cases hri : replayImage parseT expand workspace imgs.flatten (DState.mk [] []) with
      | ok st1 => simp [Res.bind]
      | err e => simp [Res.bind]
      | crash => simp [Res.bind]
  · rw [replayImage_append]
    cases hri : replayImage parseT expand workspace pre st with
    | ok st' => simp [Res.bind, replayImage]
    | err e => simp [Res.bind]
    | crash => simp [Res.bind]

theorem filterDeps_pure (m : String → List String → Bool) (ex : List String) :
    ∀ l, filterDeps (fun d ex' => Except.ok (m d ex')) ex l
      = Except.ok (l.filter (fun d => !(m d ex)))
  | [] => rfl
  | d :: rest => by
    simp only [filterDeps, filterDeps_pure m ex rest]
    cases hm : m d ex <;> simp [hm, List.filter_cons]

/-- C9: the ignore filter's contract.  (1) A missing ignore file is treated
as an empty exclude list and the call succeeds, returning the sorted
candidates the matcher (run on no patterns) lets through.  (2) When the
ignore file exists, a read failure is fatal.  (3) When the ignore file is
read successfully, the matcher runs on the patterns augmented with the
implicit ".dockerignore" self-exclusion.  (4) Every successful output is
sorted lexicographically. -/
theorem ignore_filter_contract (ab : String → String) (m : String → List String → Bool)
    (o : String → Except String Unit) (r : String → Except String (List String))
    (paths patterns : List String) (ip e : String) :
    (applyDockerIgnore
        (IgnoreEnv.mk (fun _ => StatRes.notExist) o r (fun l => Except.ok (l.map ab))
          (fun d ex' => Except.ok (m d ex'))) paths ip
      = Except.ok (sortStrings ((paths.map ab).filter (fun d => !(m d []))))) ∧
    (applyDockerIgnore
        (IgnoreEnv.mk (fun _ => StatRes.found) (fun _ => Except.ok ())
          (fun _ => Except.error e) (fun l => Except.ok (l.map ab))
          (fun d ex' => Except.ok (m d ex'))) paths ip
      = Except.error e) ∧
    (applyDockerIgnore
        (IgnoreEnv.mk (fun _ => StatRes.found) (fun _ => Except.ok ())
          (fun _ => Except.ok patterns) (fun l => Except.ok (l.map ab))
          (fun d ex' => Except.ok (m d ex'))) paths ip
      = Except.ok (sortStrings ((paths.map ab).filter
          (fun d => !(m d ((patterns ++ [".dockerignore"]).map ab)))))) ∧
    (∀ (ie : IgnoreEnv) (ps : List String) (ip' : String) (l : List String),
      applyDockerIgnore ie ps ip' = Except.ok l → StrSorted l) := by
  refine ⟨?_, ?_, ?_, ?_⟩
  · simp [applyDockerIgnore, dockerIgnoreExcludes, filterDeps_pure]
  · simp [applyDockerIgnore, dockerIgnoreExcludes]
  · simp [applyDockerIgnore, dockerIgnoreExcludes, filterDeps_pure]
  · intro ie ps ip' l h
    unfold applyDockerIgnore at h
    cases h1 : ie.relPathToAbsPath ps with
    | error e1 =>
      simp only [h1] at h
      exact Except.noConfusion h
    | ok absPaths =>
      simp only [h1] at h
      cases h2 : dockerIgnoreExcludes ie ip' with
      | error e2 =>
        simp only [h2] at h
        exact Except.noConfusion h
      | ok excl =>
        simp only [h2] at h
        cases h3 : ie.relPathToAbsPath excl with
        | error e3 =>
          simp only [h3] at h
          exact Except.noConfusion h
        | ok absEx =>
          simp only [h3] at h
          cases h4 : filterDeps ie.matchPath absEx absPaths with
          | error e4 =>
            simp only [h4] at h
            exact Except.noConfusion h
          | ok filtered =>
            simp only [h4, Except.ok.injEq] at h
            rw [← h]
            exact sorted_sortStrings filtered

/-- Witness for C9: a concrete successful run produces a sorted list. -/
theorem ignore_filter_contract_witness : StrSorted ["/ws/Dockerfile", "/ws/app.go"] :=
  (ignore_filter_contract (fun s => s) (fun _ _ => false) (fun _ => Except.ok ())
      (fun _ => Except.ok []) [] [] ("/ws/.dockerignore") ("e")).2.2.2
    (IgnoreEnv.mk (fun _ => StatRes.notExist) (fun _ => Except.ok ())
      (fun _ => Except.ok []) (fun l => Except.ok l) (fun _ _ => Except.ok false))
    ["/ws/app.go", "/ws/Dockerfile"] ("/ws/.dockerignore")
    ["/ws/Dockerfile", "/ws/app.go"] rfl

theorem applyDockerIgnore_pure (stat2 : String → StatRes)
    (o : String → Except String Unit) (r : String → Except String (List String))
    (m : String → List String → Bool) (paths ex : List String) (ip : String)
    (hex : dockerIgnoreExcludes
        (IgnoreEnv.mk stat2 o r (fun l => Except.ok l)
          (fun d ex' => Except.ok (m d ex'))) ip = Except.ok ex) :
    applyDockerIgnore
        (IgnoreEnv.mk stat2 o r (fun l => Except.ok l)
          (fun d ex' => Except.ok (m d ex'))) paths ip
      = Except.ok (sortStrings (paths.filter (fun d => !(m d ex)))) := by
  simp [applyDockerIgnore, hex, filterDeps_pure]

/-- C4: with identity absolute-path conversion and a pure matcher, whenever
`GetDockerfileDependencies` succeeds, the dockerfile's own path is in the
returned list exactly when the matcher does not match it against the
effective exclusion patterns: the path is added to the candidates before
ignore filtering and gets no special protection from exclusion. -/
theorem dockerfile_path_in_result_iff_not_excluded
    (openRes : String → Except String Unit)
    (parseRes : Except String (List (List Cell)))
    (retrieve : String → Except String ConfigFile)
    (parseT : String → Except String (List (List Cell)))
    (expand : String → List (String × String) → Except String String)
    (expandPaths : String → List String → Except String (List String))
    (stat2 : String → StatRes) (o : String → Except String Unit)
    (r : String → Except String (List String)) (m : String → List String → Bool)
    (dockerfilePath workspace : String) (deps ex : List String)
    (hok : getDockerfileDependencies openRes parseRes retrieve parseT expand expandPaths
        (IgnoreEnv.mk stat2 o r (fun l => Except.ok l)
          (fun d ex' => Except.ok (m d ex')))
        dockerfilePath workspace = Res.ok deps)
    (hex : dockerIgnoreExcludes
        (IgnoreEnv.mk stat2 o r (fun l => Except.ok l)
          (fun d ex' => Except.ok (m d ex')))
        (pathJoin workspace (".dockerignore")) = Except.ok ex) :
    pathJoin workspace dockerfilePath ∈ deps
      ↔ m (pathJoin workspace dockerfilePath) ex = false := by
  unfold getDockerfileDependencies at hok
  cases h1 : openRes (pathJoin workspace dockerfilePath) with
  | error e1 =>
    simp only [h1] at hok
    exact Res.noConfusion hok
  | ok u =>
    simp only [h1] at hok
    cases h2 : parseRes with
    | error e2 =>
      simp only [h2] at hok
      exact Res.noConfusion hok
    | ok nodes =>
      simp only [h2] at hok
      cases h3 : collectOnbuilds retrieve nodes with
      | none =>
        simp only [h3] at hok
        exact Res.noConfusion hok
      | some imgs =>
        simp only [h3] at hok
        cases h4 : replayTriggers parseT expand workspace imgs (DState.mk [] []) with
        | err e4 =>
          simp only [h4] at hok
          exact Res.noConfusion hok
        | crash =>
          simp only [h4] at hok
          exact Res.noConfusion hok
        | ok st1 =>
          simp only [h4] at hok
          unfold mainPhase at hok
          cases h5 : dispatchInstructions expand workspace nodes st1 with
          | none =>
            simp only [h5] at hok
            exact Res.noConfusion hok
          | some st2 =>
            simp only [h5] at hok
            cases h6 : expandPaths workspace st2.deps with
            | error e6 =>
              simp only [h6] at hok
              exact Res.noConfusion hok
            | ok expanded =>
              simp only [h6, applyDockerIgnore_pure stat2 o r m _ ex _ hex,
                Res.ok.injEq] at hok
              have hmem : pathJoin workspace dockerfilePath ∈
                  (if strSliceContains expanded (pathJoin workspace dockerfilePath)
                   then expanded
                   else expanded ++ [pathJoin workspace dockerfilePath]) := by
                by_cases hct :
                    strSliceContains expanded (pathJoin workspace dockerfilePath) = true
                · rw [if_pos hct]
                  simpa [strSliceContains] using hct
                · rw [if_neg hct]
                  exact List.mem_append_right _ (List.mem_singleton_self _)
              rw [← hok, mem_sortStrings, List.mem_filter]
              simp [hmem]

/-- Witness for C4: the spec's `FROM scratch` / `COPY app.go` scenario with
no ignore file: the dockerfile's own path is in the result and the matcher
(vacuously false) does not exclude it. -/
theorem dockerfile_path_in_result_iff_not_excluded_witness :
    pathJoin ("/ws") ("Dockerfile") ∈ ["/ws/Dockerfile", "/ws/app.go"]
      ↔ false = false :=
  dockerfile_path_in_result_iff_not_excluded
    (fun _ => Except.ok ())
    (Except.ok [[Cell.mk fromKw [], Cell.mk ("scratch") []],
                [Cell.mk copy [], Cell.mk ("app.go") [], Cell.mk ("/app/") []]])
    (fun _ => Except.error ("unused")) (fun _ => Except.error ("unused"))
    (fun t _ => Except.ok t) (fun _ l => Except.ok l)
    (fun _ => StatRes.notExist) (fun _ => Except.ok ()) (fun _ => Except.ok [])
    (fun _ _ => false) ("Dockerfile") ("/ws")
    ["/ws/Dockerfile", "/ws/app.go"] [] rfl rfl

end Docker
